import Mathlib

/-!
Verification of the TWIZZY self-improvement pipeline (`src/improvement/`)
against its natural-language specification.

The Python modules `analyzer.py`, `generator.py`, `scheduler.py`,
`git_auto_commit.py` and `sandbox/docker_runner.py` are shallowly embedded
below.  Pure data processing becomes Lean functions over explicit state;
the file system is a map from paths to optional contents; Python
exceptions become `Except`; wall-clock times are integer seconds.
`rollback.py` (class `RollbackManager`) is imported by `scheduler.py` but
absent from the source tree, so its three operations are modelled from the
specification text (they are marked as such below).

String handling: the embedding uses its own character-list-based string
primitives (suffix test, substring test, lowering, truncation, joining) so
that every definition evaluates inside the kernel on concrete inputs.
-/

namespace Twizzy

/-! ### String primitives (kernel-computable stand-ins for Python `str` ops) -/

/-- `suffix.isSuffixOf s` on the underlying character lists; models
`str.endswith` / `pathlib.Path.suffix == ".py"`. -/
def strEndsWith (s suffixStr : String) : Bool :=
  suffixStr.toList.isSuffixOf s.toList

/-- Substring occurrence on character lists; models Python `needle in hay`. -/
def listContainsSub (needle : List Char) : List Char → Bool
  | [] => needle.isEmpty
  | c :: rest => needle.isPrefixOf (c :: rest) || listContainsSub needle rest

/-- Models Python `needle in hay` for strings. -/
def strContainsSub (needle hay : String) : Bool :=
  listContainsSub needle.toList hay.toList

/-- ASCII lower-casing of one character; models `str.lower` per character. -/
def charLower (c : Char) : Char :=
  if 'A' ≤ c ∧ c ≤ 'Z' then Char.ofNat (c.toNat + 32) else c

/-- Models Python `str.lower` (ASCII fragment). -/
def strLower (s : String) : String :=
  (s.toList.map charLower).asString

/-- Models Python slicing `s[:n]`. -/
def strTake (s : String) (n : Nat) : String :=
  (s.toList.take n).asString

/-- Models Python `sep.join(xs)`. -/
def strJoin (sep : String) : List String → String
  | [] => ""
  | [x] => x
  | x :: y :: xs => x ++ sep ++ strJoin sep (y :: xs)

/-- Models Python `f"{n:04d}"` for `n < 10000` (as produced by `% 10000`). -/
def pad4 (n : Nat) : String :=
  let s := toString (n % 10000)
  (List.replicate (4 - s.length) '0').asString ++ s

/-! ### File-system model

Paths are strings (already relative to the project root, as the scheduler
reports them); a file system maps a path to `some content` or `none`
(absent).  Directories (`mkdir`) are not modelled separately. -/

abbrev FilePath := String

abbrev FS := FilePath → Option String

/-- Write (create or overwrite) one file; models `Path.write_text`. -/
def fsWrite (fs : FS) (p : FilePath) (content : String) : FS :=
  fun q => if q = p then some content else fs q

/-! ### `generator.py` : data model and validation -/

/-- `generator.CodeChange` (dataclass). -/
structure CodeChange where
  file_path : FilePath
  change_type : String        -- "create", "modify", "delete"
  description : String
  old_content : Option String
  new_content : String
  line_start : Option Nat := none
  line_end : Option Nat := none
deriving DecidableEq

/-- `generator.Improvement` (dataclass). -/
structure Improvement where
  id : String
  title : String
  description : String
  changes : List CodeChange
  test_code : Option String := none
deriving DecidableEq

/-- `Path.suffix == ".py"` test used by `validate_improvement`. -/
def isPyFile (p : FilePath) : Bool := strEndsWith p ".py"

/-- `ImprovementGenerator.validate_code`.  `ast.parse` and the text of the
`SyntaxError` it raises are opaque to the embedding, so they are passed in
as `pythonValid` (does the text parse as Python?) and `pythonErr` (the
formatted "Syntax error at line …" message). -/
def validate_code (pythonValid : String → Bool) (pythonErr : String → String)
    (code : String) : Bool × String :=
  if pythonValid code then (true, "") else (false, pythonErr code)

/-- One iteration of the `validate_improvement` loop: the error appended
for this change, if any. -/
def validateItem (pythonValid : String → Bool) (pythonErr : String → String)
    (c : CodeChange) : Option String :=
  if isPyFile c.file_path then
    match validate_code pythonValid pythonErr c.new_content with
    | (true, _) => none
    | (false, e) => some (c.file_path ++ ": " ++ e)
  else none

/-- `ImprovementGenerator.validate_improvement`: collect one error per
`.py` change whose new content does not parse; valid iff no errors
(`len(errors) == 0`). -/
def validate_improvement (pythonValid : String → Bool) (pythonErr : String → String)
    (imp : Improvement) : Bool × List String :=
  let errors := imp.changes.filterMap (validateItem pythonValid pythonErr)
  (errors.isEmpty, errors)

/-- The notion of "parses as syntactically valid source in its target
language" that the code implements: Python syntax for `.py` targets; no
other target language is recognised, so any other change is unconstrained. -/
def parsesInTargetLanguage (pythonValid : String → Bool) (c : CodeChange) : Bool :=
  if isPyFile c.file_path then pythonValid c.new_content else true

/-! ### Snapshot and rollback

Modelled from the spec: `rollback.py` / class `RollbackManager` is imported
by `scheduler.py` and re-exported by `improvement/__init__.py` but the file
is absent from the source tree.  Spec §4.5: `create_snapshot` "captures
current content of exactly the resources about to be touched",
`rollback_to` "restores captured content verbatim; idempotent … must
succeed even after a partial apply", `commit_improvement` "marks the prior
snapshot superseded/prunable; does not itself touch version control". -/

/-- Modelled from the spec: a `Snapshot` records the touched paths and the
exact pre-change content (present or absent) of each. -/
structure Snapshot where
  paths : List FilePath
  content : FilePath → Option String

/-- Modelled from the spec: `RollbackManager.create_snapshot` captures the
current content of the resources about to be touched. -/
def create_snapshot (touched : List FilePath) (fs : FS) : Snapshot :=
  { paths := touched
    content := fun p => if p ∈ touched then fs p else none }

/-- Modelled from the spec: `RollbackManager.rollback_to` restores the
captured content verbatim on every covered path and leaves the rest alone. -/
def rollback_to (s : Snapshot) (fs : FS) : FS :=
  fun p => if p ∈ s.paths then s.content p else fs p

/-! ### `git_auto_commit.py` -/

/-- A raised Python exception, by kind. -/
inductive PyErr
  | nameError (name : String)     -- unresolved bare name
  | other (message : String)
deriving DecidableEq

/-- `git_auto_commit.GitCommitResult` (dataclass). -/
structure GitCommitResult where
  success : Bool
  commit_hash : Option String
  message : String
  pushed : Bool
  timestamp : Int
  files_changed : List String
  error : Option String := none
deriving DecidableEq

/-- Environment describing the repository and the outcomes of the external
`git` subprocess calls that `GitAutoCommit` issues.  `pushOk`/`pushMessage`
summarise the `(success, message)` pair returned by `GitAutoCommit.push`
(including its rebase-and-retry logic), which is driven entirely by
subprocess output. -/
structure GitEnv where
  enabled : Bool             -- self._enabled
  isRepo : Bool              -- `git rev-parse --git-dir` succeeds
  hasChanges : Bool          -- `git status --porcelain` output is non-empty
  changedFiles : List String -- parsed `git status --porcelain` lines
  stageOk : Bool             -- `git add -A` succeeds
  commitOk : Bool            -- `git commit -m …` succeeds
  commitHash : Option String -- `git rev-parse HEAD` (first 8 chars), if it succeeds
  pushOk : Bool              -- outcome of GitAutoCommit.push
  pushMessage : String       -- message of GitAutoCommit.push
deriving DecidableEq

/-- `GitAutoCommit.commit_and_push_improvement`.  After the enabled and
is-git-repo guards, the source (git_auto_commit.py line 240) evaluates the
bare name `has_changes_to_commit`, which is not defined at module level
(the method is `self.has_changes_to_commit()`, called correctly at line
359 of the sibling method), so execution raises `NameError` there and the
remainder of the method body — the no-op-success, commit and
degraded-success paths at lines 241-329 — is unreachable. -/
def commit_and_push_improvement (env : GitEnv) (now : Int)
    (_title _description _improvement_id : String)
    (files_changed : List String) : Except PyErr GitCommitResult :=
  if !env.enabled then
    .ok { success := false, commit_hash := none, message := "Auto-commit is disabled"
          pushed := false, timestamp := now, files_changed := files_changed
          error := some "Auto-commit disabled" }
  else if !env.isRepo then
    .ok { success := false, commit_hash := none, message := "Not a git repository"
          pushed := false, timestamp := now, files_changed := files_changed
          error := some "Not a git repository" }
  else
    .error (.nameError "has_changes_to_commit")

/-- `GitAutoCommit.commit_and_push_manual_changes`, which performs the same
pipeline but calls `self.has_changes_to_commit()` correctly.  Included to
document the intended semantics of the improvement path: commit success
with push failure yields `success = true`, `pushed = false`, `error` set to
the push diagnostics, and a clean tree yields a no-op success. -/
def commit_and_push_manual_changes (env : GitEnv) (now : Int)
    (message : String) : GitCommitResult :=
  if !env.isRepo then
    { success := false, commit_hash := none, message := "Not a git repository"
      pushed := false, timestamp := now, files_changed := []
      error := some "Not a git repository" }
  else if !env.hasChanges then
    { success := true, commit_hash := none, message := "No changes to commit"
      pushed := false, timestamp := now, files_changed := [], error := none }
  else if !env.stageOk then
    { success := false, commit_hash := none, message := "Failed to stage changes"
      pushed := false, timestamp := now, files_changed := env.changedFiles
      error := some "Failed to stage changes" }
  else if !env.commitOk then
    { success := false, commit_hash := none, message := "Failed to commit"
      pushed := false, timestamp := now, files_changed := env.changedFiles
      error := some "Failed to commit" }
  else if env.pushOk then
    { success := true, commit_hash := env.commitHash
      message := "Committed: " ++ message ++ " (pushed)"
      pushed := true, timestamp := now, files_changed := env.changedFiles
      error := none }
  else
    { success := true, commit_hash := env.commitHash
      message := "Committed: " ++ message ++ " (push failed: " ++ env.pushMessage ++ ")"
      pushed := false, timestamp := now, files_changed := env.changedFiles
      error := some env.pushMessage }

/-! ### `sandbox/docker_runner.py` and `scheduler._run_tests` -/

/-- `docker_runner.SandboxResult` (dataclass). -/
structure SandboxResult where
  success : Bool
  output : String
  error : Option String
  exit_code : Int
  duration_ms : Nat
deriving DecidableEq

/-- One concrete execution of a verification script: either it never
terminates, or it finishes after `duration` seconds with the given exit
code and output streams. -/
structure ScriptExec where
  hangs : Bool
  duration : Nat            -- seconds, when it terminates
  exitCode : Int
  stdout : String
  stderr : String
deriving DecidableEq

/-- Does `asyncio.wait_for(…, timeout)` fire for this execution? -/
def execExceeds (e : ScriptExec) (timeout : Nat) : Bool :=
  e.hangs || decide (timeout < e.duration)

/-- The `SandboxResult` produced by the `asyncio.TimeoutError` handlers of
`DockerSandbox.run_tests` and `DockerSandbox._run_local`. -/
def timeoutResult (timeout : Nat) : SandboxResult :=
  { success := false, output := ""
    error := some ("Test timed out after " ++ toString timeout ++ " seconds")
    exit_code := -1, duration_ms := timeout * 1000 }

/-- The `SandboxResult` produced when the test process finishes. -/
def finishedResult (e : ScriptExec) : SandboxResult :=
  { success := decide (e.exitCode = 0), output := e.stdout
    error := if e.stderr ≠ "" then some e.stderr else none
    exit_code := e.exitCode, duration_ms := e.duration * 1000 }

/-- `DockerSandbox.run_tests`, docker-available path with a successful image
build: the container run is wrapped in `asyncio.wait_for(…, timeout)`; on
`TimeoutError` the container is killed and a failed, timeout-marked result
is returned. -/
def dockerRunTests (timeout : Nat) (e : ScriptExec) : SandboxResult :=
  if execExceeds e timeout then timeoutResult timeout else finishedResult e

/-- `DockerSandbox._run_local` (fallback without docker): identical
`asyncio.wait_for` timeout semantics. -/
def localRunTests (timeout : Nat) (e : ScriptExec) : SandboxResult :=
  if execExceeds e timeout then timeoutResult timeout else finishedResult e

/-- `ImprovementScheduler._run_tests`: writes the test file and awaits
`process.communicate()` with no `wait_for` and no timeout of any kind, then
returns `returncode == 0`.  If the pytest process never terminates the
coroutine never resumes, which the embedding renders as `none`. -/
def scheduler_run_tests (e : ScriptExec) : Option Bool :=
  if e.hangs then none else some (decide (e.exitCode = 0))

/-! ### `analyzer.py` -/

/-- `analyzer.TaskRecord` (dataclass); timestamps are integer seconds. -/
structure TaskRecord where
  task_id : String
  user_request : String
  tools_used : List String
  success : Bool
  error_message : Option String
  duration_ms : Nat
  timestamp : Int
deriving DecidableEq

/-- `analyzer.ImprovementType` (enum). -/
inductive ImprovementType
  | FIX_FAILURE | OPTIMIZE_SPEED | NEW_CAPABILITY | CODE_QUALITY | PATTERN_AUTOMATION
deriving DecidableEq

/-- The `.value` string of each enum member. -/
def ImprovementType.value : ImprovementType → String
  | .FIX_FAILURE => "fix_failure"
  | .OPTIMIZE_SPEED => "optimize_speed"
  | .NEW_CAPABILITY => "new_capability"
  | .CODE_QUALITY => "code_quality"
  | .PATTERN_AUTOMATION => "pattern_automation"

/-- The `context` dict payload of an opportunity, one shape per producer. -/
inductive OppContext
  | failureCtx (error_message : String) (occurrence_count : Nat)
      (sample_requests : List String) (tools_involved : List String)
  | slowCtx (tool_name : String) (avg_duration_ms : Nat) (occurrence_count : Nat)
  | patternCtx (tool_sequence : List String) (occurrence_count : Nat)
  | capabilityCtx (sample_requests : List String) (request_count : Nat)
deriving DecidableEq

/-- `analyzer.ImprovementOpportunity` (dataclass); the wall-clock
`detected_at` field is omitted. -/
structure ImprovementOpportunity where
  id : String
  type : ImprovementType
  description : String
  priority : Nat
  context : OppContext
deriving DecidableEq

/-- The trailing analysis window, `timedelta(days=7)` in seconds. -/
def windowSecs : Int := 7 * 86400

/-- `t.timestamp > datetime.now() - timedelta(days=7)`. -/
def inWindow (now : Int) (t : TaskRecord) : Bool :=
  decide (now - windowSecs < t.timestamp)

/-- Keys of a Python dict built by appending under each key: first
occurrence order, no duplicates. -/
def firstKeys {α : Type} [DecidableEq α] : List α → List α
  | [] => []
  | k :: ks => k :: firstKeys (ks.filter (fun x => x ≠ k))
termination_by l => l.length
decreasing_by
  simp only [List.length_cons]
  exact Nat.lt_succ_of_le (List.length_filter_le _ _)

/-- The grouping key of `_analyze_failures`:
`error_key = task.error_message or "unknown"` (Python `or` also replaces
the empty string). -/
def errorKey (t : TaskRecord) : String :=
  match t.error_message with
  | some s => if s = "" then "unknown" else s
  | none => "unknown"

/-- The failed records inside the trailing window. -/
def recentFailures (now : Int) (history : List TaskRecord) : List TaskRecord :=
  history.filter (fun t => !t.success && inWindow now t)

/-- `error_groups` of `_analyze_failures`: insertion-ordered keys, each
with the failed-in-window records carrying that key, in history order. -/
def errorGroups (now : Int) (history : List TaskRecord) :
    List (String × List TaskRecord) :=
  let recent := recentFailures now history
  (firstKeys (recent.map errorKey)).map
    (fun k => (k, recent.filter (fun t => errorKey t = k)))

/-- One fix-failure opportunity from a (key, cluster) pair.  `hash(error)`
is CPython-specific, so it enters as the parameter `pyhash`; `list(set(…))`
iterates in an unspecified order, modelled as first-occurrence
de-duplication. -/
def mkFailureOpp (pyhash : String → Nat) (kg : String × List TaskRecord) :
    ImprovementOpportunity :=
  { id := "fix-" ++ pad4 (pyhash kg.1 % 10000)
    type := .FIX_FAILURE
    description := "Fix recurring failure: " ++ strTake kg.1 100
    priority := min (kg.2.length + 5) 10
    context := .failureCtx kg.1 kg.2.length ((kg.2.take 3).map (·.user_request))
      (firstKeys (kg.2.flatMap (·.tools_used))) }

/-- `ImprovementAnalyzer._analyze_failures`: one opportunity per error
cluster of size at least 2. -/
def analyzeFailures (pyhash : String → Nat) (now : Int)
    (history : List TaskRecord) : List ImprovementOpportunity :=
  ((errorGroups now history).filter (fun g => 2 ≤ g.2.length)).map (mkFailureOpp pyhash)

/-- `ImprovementAnalyzer._analyze_slow_operations`.  The float comparison
`duration > 3 * (total / n)` is modelled exactly as `3 * total < duration * n`;
the float average stored in the context is modelled by natural division. -/
def analyzeSlowOps (now : Int) (history : List TaskRecord) :
    List ImprovementOpportunity :=
  if history.length < 10 then [] else
  let successful := history.filter (·.success)
  if successful.isEmpty then [] else
  let total := (successful.map (·.duration_ms)).sum
  let n := successful.length
  let slow := successful.filter
    (fun t => decide (3 * total < t.duration_ms * n) && inWindow now t)
  let pairs := slow.flatMap (fun t => t.tools_used.map (fun tool => (tool, t.duration_ms)))
  (firstKeys (pairs.map (·.1))).filterMap (fun tool =>
    let durations := (pairs.filter (fun pr => pr.1 = tool)).map (·.2)
    if 2 ≤ durations.length then
      some { id := "optimize-" ++ strTake tool 20
             type := .OPTIMIZE_SPEED
             description := "Optimize slow tool: " ++ tool
             priority := 6
             context := .slowCtx tool (durations.sum / durations.length)
               durations.length }
    else none)

/-- The sequence key of `_analyze_patterns`: `",".join(task.tools_used)`. -/
def seqKey (t : TaskRecord) : String := strJoin "," t.tools_used

/-- `seq.split(",")`, over character lists. -/
def splitChar (sep : Char) : List Char → List (List Char)
  | [] => [[]]
  | c :: rest =>
    let r := splitChar sep rest
    if c = sep then [] :: r
    else match r with
    | [] => [[c]]
    | g :: gs => (c :: g) :: gs

/-- Models Python `s.split(sep)` for a one-character separator. -/
def strSplitChar (s : String) (sep : Char) : List String :=
  (splitChar sep s.toList).map List.asString

/-- `ImprovementAnalyzer._analyze_patterns`: multi-tool sequences inside the
window, recurring at least 3 times. -/
def analyzePatterns (pyhash : String → Nat) (now : Int)
    (history : List TaskRecord) : List ImprovementOpportunity :=
  let recent := history.filter (inWindow now)
  let multi := recent.filter (fun t => 2 ≤ t.tools_used.length)
  (firstKeys (multi.map seqKey)).filterMap (fun seq =>
    let count := (multi.filter (fun t => seqKey t = seq)).length
    if 3 ≤ count then
      let tools := strSplitChar seq ','
      some { id := "automate-" ++ pad4 (pyhash seq % 10000)
             type := .PATTERN_AUTOMATION
             description := "Create automation for common pattern: "
               ++ strJoin " -> " (tools.take 3)
             priority := 5
             context := .patternCtx tools count }
    else none)

/-- The missing-capability filter of `_analyze_missing_capabilities`.
(Python also drops `error_message` that is the empty string by truthiness;
an empty string contains neither needle, so the outcome agrees.) -/
def capabilityError (t : TaskRecord) : Bool :=
  match t.error_message with
  | some e => strContainsSub "not found" (strLower e)
      || strContainsSub "not supported" (strLower e)
  | none => false

/-- The grouping key: `task.user_request.lower()[:50]`. -/
def capabilityKey (t : TaskRecord) : String :=
  strTake (strLower t.user_request) 50

/-- `ImprovementAnalyzer._analyze_missing_capabilities`.  The source wraps
the request excerpt of the description in single quotes, omitted here. -/
def analyzeCapabilities (pyhash : String → Nat) (now : Int)
    (history : List TaskRecord) : List ImprovementOpportunity :=
  let recent := history.filter
    (fun t => !t.success && inWindow now t && capabilityError t)
  (firstKeys (recent.map capabilityKey)).filterMap (fun k =>
    let requests := (recent.filter (fun t => capabilityKey t = k)).map (·.user_request)
    if 2 ≤ requests.length then
      some { id := "capability-" ++ pad4 (pyhash k % 10000)
             type := .NEW_CAPABILITY
             description := "Add new capability for: "
               ++ strTake (requests.headD "") 50 ++ "..."
             priority := 7
             context := .capabilityCtx (requests.take 3) requests.length }
    else none)

/-- `ImprovementAnalyzer.analyze`: run the four passes in order, then a
stable sort by priority, highest first (`list.sort` with `reverse=True`). -/
def analyze (pyhash : String → Nat) (now : Int) (history : List TaskRecord) :
    List ImprovementOpportunity :=
  let opps := analyzeFailures pyhash now history
    ++ analyzeSlowOps now history
    ++ analyzePatterns pyhash now history
    ++ analyzeCapabilities pyhash now history
  opps.mergeSort (fun a b => decide (b.priority ≤ a.priority))

/-- `ImprovementAnalyzer.record_task`: `self.task_history.append(task)`
followed by `_save_history`. -/
def record_task (history : List TaskRecord) (t : TaskRecord) : List TaskRecord :=
  history ++ [t]

/-- The `"tasks"` list `_save_history` writes to disk:
`self.task_history[-1000:]`. -/
def persistedHistory (history : List TaskRecord) : List TaskRecord :=
  history.drop (history.length - 1000)

/-! ### `scheduler.py` : processing one opportunity -/

/-- `scheduler.ImprovementResult` (dataclass). -/
structure ImprovementResult where
  improvement_id : String
  success : Bool
  message : String
  changes_applied : Nat
  timestamp : Int
  git_result : Option GitCommitResult := none
  commit_hash : Option String := none
  pushed_to_github : Bool := false
deriving DecidableEq

/-- Where `_process_opportunity` returned from. -/
inductive Stage
  | genFailed         -- generator returned None
  | validationFailed  -- validate_improvement said invalid
  | applyFailed       -- a write raised; rolled back
  | testsRaised       -- _run_tests raised; caught by the outer handler
  | testsFailed       -- _run_tests returned False; rolled back
  | publishRaised     -- commit_and_push_improvement raised; caught by the outer handler
  | done              -- a result with success=True was returned
deriving DecidableEq

/-- Everything outside `_process_opportunity` that determines one run:
the generator's outcome (`generate` catches its own exceptions and returns
`None` on any failure), which `write_text` calls raise (indexed by change
position), the outcome of `_run_tests` (which has no exception handler, so
a raise propagates), the `auto_push_to_github` flag, and the git
environment. -/
structure ProcessEnv where
  genResult : Option Improvement
  writeFails : Nat → Bool
  testsOutcome : Except PyErr Bool
  autoPush : Bool
  gitEnv : GitEnv

/-- The set of resource paths an improvement touches. -/
def touchedPaths (imp : Improvement) : List FilePath :=
  imp.changes.map (·.file_path)

/-- The apply loop of `_process_opportunity` (scheduler.py lines 196-217):
"create" and "modify" write the new content, any other kind (notably
"delete") writes nothing; each iteration then counts the change and
records its path.  A write that raises (`writeFails` at that index) aborts
the loop with the error message and the file system as mutated so far. -/
def applyChanges (writeFails : Nat → Bool) :
    List CodeChange → Nat → FS → Nat → List String →
    Except (String × FS) (FS × Nat × List String)
  | [], _, fs, applied, files => .ok (fs, applied, files)
  | c :: rest, idx, fs, applied, files =>
    if c.change_type = "create" ∨ c.change_type = "modify" then
      if writeFails idx then .error (c.file_path, fs)
      else applyChanges writeFails rest (idx + 1) (fsWrite fs c.file_path c.new_content)
            (applied + 1) (files ++ [c.file_path])
    else
      applyChanges writeFails rest (idx + 1) fs (applied + 1) (files ++ [c.file_path])

/-- Modelled from the spec: `RollbackManager.commit_improvement` "marks the
prior snapshot superseded/prunable; does not itself touch version
control" — no effect on the monitored resources. -/
def commit_improvement (_imp : Improvement) (fs : FS) : FS := fs

/-- The complete observable outcome of one `_process_opportunity` run. -/
structure ProcOut where
  res : ImprovementResult
  fs : FS
  snap : Option Snapshot
  filesChanged : List String
  rolledBack : Bool
  stage : Stage

/-- The failed `ImprovementResult` shape used by every failure return site. -/
def failResult (opp_id : String) (now : Int) (msg : String) : ImprovementResult :=
  { improvement_id := opp_id, success := false, message := msg
    changes_applied := 0, timestamp := now }

/-- The message carried by a `PyErr`, as `str(e)` renders it. -/
def PyErr.text : PyErr → String
  | .nameError n => "name '" ++ n ++ "' is not defined"
  | .other m => m

/-- `ImprovementScheduler._process_opportunity`: generate, validate,
snapshot, apply (rolling back if a write raises), optionally run tests
(rolling back if they report failure), commit the snapshot, optionally
publish via `commit_and_push_improvement`, and wrap everything in an
outer `except Exception` that converts any in-flight exception into a
failed `ImprovementResult` — without running any rollback. -/
def process (pythonValid : String → Bool) (pythonErr : String → String)
    (env : ProcessEnv) (opp_id : String) (now : Int) (fs : FS) : ProcOut :=
  match env.genResult with
  | none =>
    ⟨failResult opp_id now "Failed to generate improvement", fs, none, [], false, .genFailed⟩
  | some imp =>
    match validate_improvement pythonValid pythonErr imp with
    | (false, errors) =>
      ⟨failResult opp_id now ("Validation failed: " ++ strJoin "; " errors),
        fs, none, [], false, .validationFailed⟩
    | (true, _) =>
      let snap := create_snapshot (touchedPaths imp) fs
      match applyChanges env.writeFails imp.changes 0 fs 0 [] with
      | .error (badPath, fs1) =>
        let fs2 := rollback_to snap fs1
        ⟨failResult opp_id now ("Failed to apply changes: " ++ badPath),
          fs2, some snap, [], true, .applyFailed⟩
      | .ok (fs1, applied, files) =>
        let afterTests : Except (Stage × ImprovementResult × FS × Bool) FS :=
          match imp.test_code with
          | none => .ok fs1
          | some _ =>
            match env.testsOutcome with
            | .error e => .error (.testsRaised, failResult opp_id now e.text, fs1, false)
            | .ok false =>
              .error (.testsFailed,
                failResult opp_id now "Tests failed after applying changes",
                rollback_to snap fs1, true)
            | .ok true => .ok fs1
        match afterTests with
        | .error (st, r, fs2, rb) => ⟨r, fs2, some snap, files, rb, st⟩
        | .ok fs2 =>
          let fs3 := commit_improvement imp fs2
          match (if env.autoPush then
                  some (commit_and_push_improvement env.gitEnv now
                          imp.title imp.description imp.id files)
                 else none) with
          | some (.error e) =>
            ⟨failResult opp_id now e.text, fs3, some snap, files, false, .publishRaised⟩
          | some (.ok g) =>
            ⟨{ improvement_id := opp_id, success := true
               message := "Applied: " ++ imp.title
               changes_applied := applied, timestamp := now
               git_result := some g, commit_hash := g.commit_hash
               pushed_to_github := g.pushed },
              fs3, some snap, files, false, .done⟩
          | none =>
            ⟨{ improvement_id := opp_id, success := true
               message := "Applied: " ++ imp.title
               changes_applied := applied, timestamp := now
               git_result := none, commit_hash := none
               pushed_to_github := false },
              fs3, some snap, files, false, .done⟩

/-! ### `scheduler.py` : the manual `improve_now` trigger -/

/-- The dict returned by `ImprovementScheduler.improve_now`, one
constructor per return site.  `rateLimited`, `noOpportunities` and
`failed` carry `success=False` and an `error`; `applied` carries
`success=True` with the keys of the success dict. -/
inductive ImproveNowResponse
  | rateLimited (error : String)
  | noOpportunities (error : String)
  | failed (error : String)
  | applied (improvement : String) (improvement_id : String)
      (files_changed : Nat) (commit_hash : Option String)
      (pushed_to_github : Bool) (git_message : Option String)
deriving DecidableEq

/-- The `"success"` key of the response dict. -/
def ImproveNowResponse.successFlag : ImproveNowResponse → Bool
  | .applied _ _ _ _ _ _ => true
  | _ => false

/-- The cooldown shared by all improvement attempts:
`cooldown = timedelta(minutes=5)`, in seconds. -/
def cooldownSecs : Int := 300

/-- The focus filter of `improve_now`:
`focus.lower() in o.description.lower() or focus.lower() in o.type.value.lower()`. -/
def focusMatches (focus : String) (o : ImprovementOpportunity) : Bool :=
  strContainsSub (strLower focus) (strLower o.description)
    || strContainsSub (strLower focus) (strLower o.type.value)

/-- The body of `improve_now` after the rate-limit gate: filter the
analyzed opportunities by focus, reject if none remain (the source wraps
the focus text in single quotes, omitted here), otherwise process the top
opportunity, append its result to the history, and build the response. -/
def improveNowBody (pythonValid : String → Bool) (pythonErr : String → String)
    (penv : ProcessEnv) (now : Int) (focus : Option String)
    (opps : List ImprovementOpportunity) (hist : List ImprovementResult)
    (fs : FS) : ImproveNowResponse × List ImprovementResult × FS :=
  let opps2 := match focus with
    | some f => opps.filter (focusMatches f)
    | none => opps
  match opps2 with
  | [] =>
    (.noOpportunities ("No improvement opportunities found"
        ++ (match focus with | some f => " for " ++ f | none => "")),
      hist, fs)
  | o :: _ =>
    let out := process pythonValid pythonErr penv o.id now fs
    let hist2 := hist ++ [out.res]
    if out.res.success then
      (.applied out.res.message out.res.improvement_id out.res.changes_applied
          out.res.commit_hash out.res.pushed_to_github
          (out.res.git_result.map (·.message)),
        hist2, out.fs)
    else
      (.failed out.res.message, hist2, out.fs)

/-- `ImprovementScheduler.improve_now`: if the last recorded
`ImprovementResult` is younger than the 5-minute cooldown, reject with the
remaining wait (`int(remaining.total_seconds())` seconds) without touching
the history or analyzing anything; otherwise run the body.  The
opportunity list stands for `self.analyzer.analyze()`. -/
def improve_now (pythonValid : String → Bool) (pythonErr : String → String)
    (penv : ProcessEnv) (now : Int) (focus : Option String)
    (opps : List ImprovementOpportunity) (hist : List ImprovementResult)
    (fs : FS) : ImproveNowResponse × List ImprovementResult × FS :=
  match hist.getLast? with
  | some last =>
    if now - last.timestamp < cooldownSecs then
      (.rateLimited ("Rate limited. Try again in "
          ++ toString (cooldownSecs - (now - last.timestamp)) ++ " seconds."),
        hist, fs)
    else improveNowBody pythonValid pythonErr penv now focus opps hist fs
  | none => improveNowBody pythonValid pythonErr penv now focus opps hist fs

/-! ## Helper lemmas -/

theorem rollback_to_idem (s : Snapshot) (fs : FS) :
    rollback_to s (rollback_to s fs) = rollback_to s fs := by
  funext p
  simp only [rollback_to]
  by_cases h : p ∈ s.paths <;> simp [h]

theorem rollback_restore_touched (touched : List FilePath) (fs g : FS)
    (p : FilePath) (hp : p ∈ touched) :
    rollback_to (create_snapshot touched fs) g p = fs p := by
  simp [rollback_to, create_snapshot, hp]

theorem validateItem_eq_none_iff (pythonValid : String → Bool)
    (pythonErr : String → String) (c : CodeChange) :
    validateItem pythonValid pythonErr c = none
      ↔ parsesInTargetLanguage pythonValid c = true := by
  by_cases hpy : isPyFile c.file_path = true
  · by_cases hv : pythonValid c.new_content = true <;>
      simp [validateItem, validate_code, parsesInTargetLanguage, hpy, hv]
  · simp [validateItem, parsesInTargetLanguage, hpy]

theorem validateItem_eq_some (pythonValid : String → Bool)
    (pythonErr : String → String) (c : CodeChange) (e : String)
    (h : validateItem pythonValid pythonErr c = some e) :
    parsesInTargetLanguage pythonValid c = false
      ∧ e = c.file_path ++ ": " ++ pythonErr c.new_content := by
  by_cases hpy : isPyFile c.file_path = true
  · by_cases hv : pythonValid c.new_content = true <;>
      simp_all [validateItem, validate_code, parsesInTargetLanguage, hpy, hv]
  · simp_all [validateItem, parsesInTargetLanguage, hpy]

/-! ## Claim C4 — rollback idempotence and verbatim restore -/

/-- C4: `rollback_to s` applied twice yields the same final state of the
monitored resources as applied once; and it restores the captured content
verbatim: for every path covered by a snapshot, rolling back from any later
state (in particular a partially applied one) reproduces exactly the
content the snapshot captured. -/
theorem rollback_idempotent_and_verbatim :
    (∀ (s : Snapshot) (fs : FS),
      rollback_to s (rollback_to s fs) = rollback_to s fs)
    ∧ (∀ (touched : List FilePath) (fs g : FS) (p : FilePath), p ∈ touched →
      rollback_to (create_snapshot touched fs) g p = fs p) :=
  ⟨rollback_to_idem, rollback_restore_touched⟩

/-- A pre-apply state and a partially applied state used to instantiate
C4 and C2 concretely. -/
def fsPre : FS := fun p => if p = "a.py" then some "before" else none

/-- A partially applied state differing from `fsPre` on the touched path. -/
def fsMid : FS := fun p => if p = "a.py" then some "after" else none

theorem rollback_idempotent_and_verbatim_witness :
    rollback_to (create_snapshot ["a.py", "b.py"] fsPre) fsMid "a.py" = fsPre "a.py" :=
  rollback_idempotent_and_verbatim.2 ["a.py", "b.py"] fsPre fsMid "a.py" (by decide)

/-! ## Claim C8 — validation is all-or-nothing -/

/-- C8: `validate_improvement` returns ok iff the new content of every
change parses as syntactically valid source in its target language (Python
for `.py` targets — the only target language the code recognises; other
changes carry no syntax obligation); a single failing change makes the
whole improvement invalid; and every reported error names the offending
file. -/
theorem validate_improvement_all_or_nothing (pythonValid : String → Bool)
    (pythonErr : String → String) (imp : Improvement) :
    ((validate_improvement pythonValid pythonErr imp).1 = true
      ↔ ∀ c ∈ imp.changes, parsesInTargetLanguage pythonValid c = true)
    ∧ (∀ c ∈ imp.changes, parsesInTargetLanguage pythonValid c = false →
        (validate_improvement pythonValid pythonErr imp).1 = false)
    ∧ (∀ e ∈ (validate_improvement pythonValid pythonErr imp).2,
        ∃ c ∈ imp.changes, parsesInTargetLanguage pythonValid c = false
          ∧ e = c.file_path ++ ": " ++ pythonErr c.new_content) := by
  refine ⟨?_, ?_, ?_⟩
  · simp only [validate_improvement, List.isEmpty_iff, List.filterMap_eq_nil_iff]
    exact ⟨fun h c hc => (validateItem_eq_none_iff pythonValid pythonErr c).mp (h c hc),
      fun h c hc => (validateItem_eq_none_iff pythonValid pythonErr c).mpr (h c hc)⟩
  · intro c hc hbad
    simp only [validate_improvement, List.isEmpty_iff]
    by_contra hne
    have hnil : imp.changes.filterMap (validateItem pythonValid pythonErr) = [] := by
      rcases hx : (imp.changes.filterMap (validateItem pythonValid pythonErr)).isEmpty with _ | _
      · simp [validate_improvement, hx] at hne
      · simpa [List.isEmpty_iff] using hx
    have := (List.filterMap_eq_nil_iff.mp hnil) c hc
    rw [validateItem_eq_none_iff] at this
    simp [this] at hbad
  · intro e he
    simp only [validate_improvement] at he
    rcases List.mem_filterMap.mp he with ⟨c, hc, hsome⟩
    rcases validateItem_eq_some pythonValid pythonErr c e hsome with ⟨h1, h2⟩
    exact ⟨c, hc, h1, h2⟩

/-- A stand-in for `ast.parse` success on the witness inputs. -/
def pyValidStub : String → Bool := fun s => !(s == "bad")

/-- A stand-in for the formatted `SyntaxError` message. -/
def pyErrStub : String → String := fun _ => "Syntax error at line 1: invalid syntax"

/-- A change whose content fails to parse. -/
def badChange : CodeChange :=
  { file_path := "bad.py", change_type := "modify", description := ""
    old_content := none, new_content := "bad" }

/-- An improvement with one valid and one invalid Python change. -/
def impMixed : Improvement :=
  { id := "w", title := "w", description := ""
    changes := [{ file_path := "ok.py", change_type := "modify", description := ""
                  old_content := none, new_content := "x = 1" }, badChange]
    test_code := none }

/-- An improvement whose changes all parse. -/
def impAllValid : Improvement :=
  { id := "w2", title := "w2", description := ""
    changes := [{ file_path := "ok.py", change_type := "create", description := ""
                  old_content := none, new_content := "x = 1" }]
    test_code := none }

theorem validate_improvement_all_or_nothing_witness :
    (validate_improvement pyValidStub pyErrStub impMixed).1 = false
    ∧ (validate_improvement pyValidStub pyErrStub impAllValid).1 = true :=
  ⟨(validate_improvement_all_or_nothing pyValidStub pyErrStub impMixed).2.1
      badChange (by decide) (by decide),
    ((validate_improvement_all_or_nothing pyValidStub pyErrStub impAllValid).1).mpr
      (by decide)⟩

/-! ## Claim C9 — task-history capping (corrected) -/

/-- An oldest task record. -/
def rec0 : TaskRecord :=
  { task_id := "t0", user_request := "r0", tools_used := [], success := true
    error_message := none, duration_ms := 5, timestamp := 0 }

/-- A newer task record. -/
def rec1 : TaskRecord :=
  { task_id := "t1", user_request := "r1", tools_used := [], success := true
    error_message := none, duration_ms := 5, timestamp := 1 }

/-- C9 counterexample: the store is not most-recent-first.  After recording
`rec0` then the strictly newer `rec1`, the persisted history is
`[rec0, rec1]` — its first entry is the oldest record, not the newest. -/
theorem persisted_history_oldest_first :
    persistedHistory (record_task (record_task [] rec0) rec1) = [rec0, rec1]
    ∧ (persistedHistory (record_task (record_task [] rec0) rec1)).head? = some rec0
    ∧ rec0 ≠ rec1 ∧ rec0.timestamp < rec1.timestamp := by
  refine ⟨by decide, by decide, by decide, by decide⟩

/-- C9 amended: `record_task` appends the new record at the tail of the
(unbounded) in-memory history; the persisted store keeps at most the last
1000 entries in chronological, most-recent-last order: its length is
`min (len) 1000`, its final entry is the record just added, and what is
evicted is exactly the oldest `len - 1000` prefix. -/
theorem record_task_capped_persistence (h : List TaskRecord) (t : TaskRecord) :
    record_task h t = h ++ [t]
    ∧ (persistedHistory (record_task h t)).length = min (record_task h t).length 1000
    ∧ (persistedHistory (record_task h t)).getLast? = some t
    ∧ (record_task h t).take ((record_task h t).length - 1000)
        ++ persistedHistory (record_task h t) = record_task h t := by
  refine ⟨rfl, ?_, ?_, ?_⟩
  · simp [persistedHistory, List.length_drop]
    omega
  · have hk : (record_task h t).length - 1000 ≤ h.length := by
      simp only [record_task, List.length_append, List.length_cons, List.length_nil]
      omega
    simp only [persistedHistory, record_task] at *
    rw [List.drop_append_of_le_length hk, List.getLast?_concat]
  · simp [persistedHistory, List.take_append_drop]

/-! ## Claim C3 — publish crashes with NameError (code bug) -/

/-- A repository state with pending changes where the commit would succeed
and the push would fail. -/
def gitEnvPendingPushFail : GitEnv :=
  { enabled := true, isRepo := true, hasChanges := true
    changedFiles := ["[M] a.py"], stageOk := true, commitOk := true
    commitHash := some "abc12345", pushOk := false
    pushMessage := "Push failed: rejected" }

/-- C3: at the failing input — auto-commit enabled, inside a git repository
with pending changes, commit destined to succeed and push to fail —
`commit_and_push_improvement` raises `NameError` at its pending-changes
check (line 240 reads the undefined bare name `has_changes_to_commit`)
instead of returning any result; the degraded-success and no-op paths
behind it are dead code.  The sibling `commit_and_push_manual_changes`,
which spells the call correctly, exhibits the intended degraded-success
semantics on the same environment: `success = true`, `pushed = false`,
`error` set to the push diagnostics. -/
theorem commit_and_push_improvement_nameError :
    commit_and_push_improvement gitEnvPendingPushFail 0 "T" "D" "imp-1" ["a.py"]
      = .error (.nameError "has_changes_to_commit")
    ∧ (commit_and_push_manual_changes gitEnvPendingPushFail 0 "Manual").success = true
    ∧ (commit_and_push_manual_changes gitEnvPendingPushFail 0 "Manual").pushed = false
    ∧ (commit_and_push_manual_changes gitEnvPendingPushFail 0 "Manual").error
        = some "Push failed: rejected" := by
  refine ⟨by rfl, by decide, by decide, by decide⟩

/-! ## Claim C6 — verifier timeout (corrected) -/

/-- A test execution that terminates normally after 120 seconds. -/
def slowExec : ScriptExec :=
  { hangs := false, duration := 120, exitCode := 0, stdout := "ok", stderr := "" }

/-- C6 counterexample: with a 60-second timeout and a 120-second execution,
the path the pipeline actually invokes (`ImprovementScheduler._run_tests`)
simply waits the execution out and reports a pass with no timeout marker,
while the sandbox path returns the timeout failure. -/
theorem scheduler_run_tests_ignores_timeout :
    scheduler_run_tests slowExec = some true
    ∧ dockerRunTests 60 slowExec = timeoutResult 60
    ∧ (timeoutResult 60).success = false
    ∧ (timeoutResult 60).error = some "Test timed out after 60 seconds" := by
  refine ⟨by decide, by decide, by decide, by decide⟩

/-- C6 amended: `DockerSandbox.run_tests` (docker path) and
`DockerSandbox._run_local` (fallback) force-terminate any execution that
exceeds the timeout and return a failed result carrying the timeout
marker; but `ImprovementScheduler._run_tests` — the path the pipeline
actually invokes — applies no timeout at all: it returns the plain pytest
outcome whenever the run terminates, however long it took, and never
returns if the run hangs. -/
theorem verifier_timeout_semantics (timeout : Nat) (e : ScriptExec) :
    (execExceeds e timeout = true →
      dockerRunTests timeout e = timeoutResult timeout
      ∧ localRunTests timeout e = timeoutResult timeout
      ∧ (dockerRunTests timeout e).success = false
      ∧ (dockerRunTests timeout e).error
          = some ("Test timed out after " ++ toString timeout ++ " seconds"))
    ∧ (e.hangs = false → scheduler_run_tests e = some (decide (e.exitCode = 0)))
    ∧ (e.hangs = true → scheduler_run_tests e = none) := by
  refine ⟨fun hx => ?_, fun hf => ?_, fun ht => ?_⟩
  · simp [dockerRunTests, localRunTests, hx, timeoutResult]
  · simp [scheduler_run_tests, hf]
  · simp [scheduler_run_tests, ht]

theorem verifier_timeout_semantics_witness :
    dockerRunTests 60 slowExec = timeoutResult 60
    ∧ scheduler_run_tests slowExec = some (decide (slowExec.exitCode = 0)) :=
  ⟨((verifier_timeout_semantics 60 slowExec).1 (by decide)).1,
    (verifier_timeout_semantics 60 slowExec).2.1 (by decide)⟩

/-! ## The apply loop: inventory and frame lemmas -/

theorem applyChanges_ok_inv (wf : Nat → Bool) :
    ∀ (cs : List CodeChange) (idx : Nat) (fs : FS) (applied : Nat)
      (files : List String) (fs2 : FS) (a2 : Nat) (f2 : List String),
      applyChanges wf cs idx fs applied files = .ok (fs2, a2, f2) →
      f2 = files ++ cs.map (·.file_path) ∧ a2 = applied + cs.length := by
  intro cs
  induction cs with
  | nil =>
    intro idx fs applied files fs2 a2 f2 h
    simp only [applyChanges, Except.ok.injEq, Prod.mk.injEq] at h
    simp [← h.2.1, ← h.2.2]
  | cons c rest ih =>
    intro idx fs applied files fs2 a2 f2 h
    simp only [applyChanges] at h
    split at h
    · split at h
      · exact absurd h (by simp)
      · rcases ih _ _ _ _ _ _ _ h with ⟨h1, h2⟩
        constructor
        · simp [h1]
        · simp [h2]; omega
    · rcases ih _ _ _ _ _ _ _ h with ⟨h1, h2⟩
      constructor
      · simp [h1]
      · simp [h2]; omega

/-- A path no "create" or "modify" change targets is untouched by a
successful apply loop. -/
theorem applyChanges_ok_fs (wf : Nat → Bool) :
    ∀ (cs : List CodeChange) (idx : Nat) (fs : FS) (applied : Nat)
      (files : List String) (fs2 : FS) (a2 : Nat) (f2 : List String),
      applyChanges wf cs idx fs applied files = .ok (fs2, a2, f2) →
      ∀ p, (∀ c ∈ cs, (c.change_type = "create" ∨ c.change_type = "modify") →
          c.file_path ≠ p) →
        fs2 p = fs p := by
  intro cs
  induction cs with
  | nil =>
    intro idx fs applied files fs2 a2 f2 h p _
    simp only [applyChanges, Except.ok.injEq, Prod.mk.injEq] at h
    rw [← h.1]
  | cons c rest ih =>
    intro idx fs applied files fs2 a2 f2 h p hp
    simp only [applyChanges] at h
    split at h
    · split at h
      · exact absurd h (by simp)
      · have hne : c.file_path ≠ p := hp c (by simp) (by assumption)
        have := ih _ _ _ _ _ _ _ h p (fun c2 hc2 => hp c2 (by simp [hc2]))
        rw [this]
        simp only [fsWrite]
        rw [if_neg (fun hq => hne hq.symm)]
    · exact ih _ _ _ _ _ _ _ h p (fun c2 hc2 => hp c2 (by simp [hc2]))

/-- A path no "create" or "modify" change targets is untouched by an apply
loop that aborts on a failed write. -/
theorem applyChanges_error_fs (wf : Nat → Bool) :
    ∀ (cs : List CodeChange) (idx : Nat) (fs : FS) (applied : Nat)
      (files : List String) (m : String) (fs1 : FS),
      applyChanges wf cs idx fs applied files = .error (m, fs1) →
      ∀ p, (∀ c ∈ cs, (c.change_type = "create" ∨ c.change_type = "modify") →
          c.file_path ≠ p) →
        fs1 p = fs p := by
  intro cs
  induction cs with
  | nil =>
    intro idx fs applied files m fs1 h p _
    simp [applyChanges] at h
  | cons c rest ih =>
    intro idx fs applied files m fs1 h p hp
    simp only [applyChanges] at h
    split at h
    · split at h
      · simp only [Except.error.injEq, Prod.mk.injEq] at h
        rw [← h.2]
      · have hne : c.file_path ≠ p := hp c (by simp) (by assumption)
        have := ih _ _ _ _ _ _ h p (fun c2 hc2 => hp c2 (by simp [hc2]))
        rw [this]
        simp only [fsWrite]
        rw [if_neg (fun hq => hne hq.symm)]
    · exact ih _ _ _ _ _ _ h p (fun c2 hc2 => hp c2 (by simp [hc2]))

/-- Rolling back the snapshot taken just before a partially applied change
set restores the pre-apply file system exactly. -/
theorem rollback_discards_apply (imp : Improvement) (fs fs1 : FS) (wf : Nat → Bool)
    (idx : Nat) (applied : Nat) (files : List String) (m : String)
    (happ : applyChanges wf imp.changes idx fs applied files = .error (m, fs1)) :
    rollback_to (create_snapshot (touchedPaths imp) fs) fs1 = fs := by
  funext p
  by_cases hp : p ∈ touchedPaths imp
  · exact rollback_restore_touched _ fs fs1 p hp
  · have hnc : ∀ c ∈ imp.changes,
        (c.change_type = "create" ∨ c.change_type = "modify") → c.file_path ≠ p := by
      intro c hc _ heq
      exact hp (heq ▸ List.mem_map_of_mem _ hc)
    have hfs1 := applyChanges_error_fs wf imp.changes idx fs applied files m fs1 happ p hnc
    simp [rollback_to, create_snapshot, hp, hfs1]

/-! ## Claim C1 — exception handling in `_process_opportunity` (corrected) -/

/-- C1 amended: `_process_opportunity` converts every in-flight exception
into a failed `ImprovementResult` (a result is returned from every branch,
and it is successful exactly when the whole pipeline completed), but
rollback fires only when an individual change write raises or when the
test run reports failure; an exception propagating out of the test run or
out of the publish step is caught by the outer handler and converted
without any rollback. -/
theorem scheduler_exception_conversion (pythonValid : String → Bool)
    (pythonErr : String → String) (env : ProcessEnv) (opp_id : String)
    (now : Int) (fs : FS) :
    ((process pythonValid pythonErr env opp_id now fs).rolledBack = true
      ↔ ((process pythonValid pythonErr env opp_id now fs).stage = .applyFailed
          ∨ (process pythonValid pythonErr env opp_id now fs).stage = .testsFailed))
    ∧ (((process pythonValid pythonErr env opp_id now fs).stage = .testsRaised
        ∨ (process pythonValid pythonErr env opp_id now fs).stage = .publishRaised) →
        (process pythonValid pythonErr env opp_id now fs).rolledBack = false
          ∧ (process pythonValid pythonErr env opp_id now fs).res.success = false)
    ∧ ((process pythonValid pythonErr env opp_id now fs).res.success = true
      ↔ (process pythonValid pythonErr env opp_id now fs).stage = .done) := by
  rcases hgen : env.genResult with _ | imp
  · simp [process, hgen, failResult]
  · rcases hval : validate_improvement pythonValid pythonErr imp with ⟨ok, errs⟩
    rcases ok
    · simp [process, hgen, hval, failResult]
    · rcases happ : applyChanges env.writeFails imp.changes 0 fs 0 [] with ⟨m, fs1⟩ | ⟨fs1, a, f⟩
      · simp [process, hgen, hval, happ, failResult]
      · rcases htc : imp.test_code with _ | tc
        · rcases hap : env.autoPush
          · simp [process, hgen, hval, happ, htc, hap, failResult]
          · rcases hgit : commit_and_push_improvement env.gitEnv now
                imp.title imp.description imp.id f with e | g
            · simp [process, hgen, hval, happ, htc, hap, hgit, failResult]
            · simp [process, hgen, hval, happ, htc, hap, hgit, failResult]
        · rcases hto : env.testsOutcome with e | b
          · simp [process, hgen, hval, happ, htc, hto, failResult]
          · rcases b
            · simp [process, hgen, hval, happ, htc, hto, failResult]
            · rcases hap : env.autoPush
              · simp [process, hgen, hval, happ, htc, hto, hap, failResult]
              · rcases hgit : commit_and_push_improvement env.gitEnv now
                    imp.title imp.description imp.id f with e | g
                · simp [process, hgen, hval, happ, htc, hto, hap, hgit, failResult]
                · simp [process, hgen, hval, happ, htc, hto, hap, hgit, failResult]

/-- A stand-in for `ast.parse` that accepts everything the generator
produced here. -/
def pyValidAll : String → Bool := fun _ => true

/-- A stand-in for the `SyntaxError` formatter (never consulted). -/
def pyErrAll : String → String := fun _ => ""

/-- An improvement with one modification of `a.py` and a test script. -/
def impTest : Improvement :=
  { id := "imp-1", title := "T", description := "D"
    changes := [{ file_path := "a.py", change_type := "modify", description := "set"
                  old_content := some "before", new_content := "after" }]
    test_code := some "def test_ok(): pass" }

/-- A run in which `_run_tests` raises (for example `pytest` cannot be
spawned) after the change has been applied. -/
def envTestsRaise : ProcessEnv :=
  { genResult := some impTest, writeFails := fun _ => false
    testsOutcome := .error (.other "OSError: cannot spawn pytest")
    autoPush := false, gitEnv := gitEnvPendingPushFail }

/-- C1 counterexample: an exception raised after snapshot creation (here:
out of the verification run) does not trigger a rollback — the failed
`ImprovementResult` is returned with the applied change still on disk. -/
theorem process_testsRaised_keeps_changes :
    (process pyValidAll pyErrAll envTestsRaise "opp-1" 0 fsPre).stage = Stage.testsRaised
    ∧ (process pyValidAll pyErrAll envTestsRaise "opp-1" 0 fsPre).rolledBack = false
    ∧ (process pyValidAll pyErrAll envTestsRaise "opp-1" 0 fsPre).res.success = false
    ∧ (process pyValidAll pyErrAll envTestsRaise "opp-1" 0 fsPre).fs "a.py" = some "after"
    ∧ fsPre "a.py" = some "before" := by
  refine ⟨by decide, by decide, by decide, by decide, by decide⟩

/-- An improvement identical to `impTest` but without a test script. -/
def impNoTest : Improvement :=
  { id := "imp-2", title := "T", description := "D"
    changes := [{ file_path := "a.py", change_type := "modify", description := "set"
                  old_content := some "before", new_content := "after" }]
    test_code := none }

/-- A run reaching the publish step, which raises (the `NameError` of
`commit_and_push_improvement`). -/
def envPublishRaises : ProcessEnv :=
  { genResult := some impNoTest, writeFails := fun _ => false
    testsOutcome := .ok true
    autoPush := true, gitEnv := gitEnvPendingPushFail }

theorem scheduler_exception_conversion_witness :
    (process pyValidAll pyErrAll envPublishRaises "opp-2" 0 fsPre).rolledBack = false
    ∧ (process pyValidAll pyErrAll envPublishRaises "opp-2" 0 fsPre).res.success = false :=
  (scheduler_exception_conversion pyValidAll pyErrAll envPublishRaises "opp-2" 0 fsPre).2.1
    (Or.inr (by decide))

/-! ## Claim C2 — snapshot coverage and all-or-nothing apply -/

/-- C2: whenever an improvement passes validation (and therefore reaches
the apply stage), the snapshot taken beforehand covers its full
touched-resource set with the pre-apply content; restoring that snapshot
reproduces the pre-apply content byte-for-byte on every touched path from
any intermediate state; and if any single change write fails, the run ends
rolled back with the file system exactly as before the apply — no
partially applied state is observable. -/
theorem snapshot_covers_and_all_or_nothing (pythonValid : String → Bool)
    (pythonErr : String → String) (env : ProcessEnv) (opp_id : String)
    (now : Int) (fs : FS) (imp : Improvement)
    (hgen : env.genResult = some imp)
    (hvalid : (validate_improvement pythonValid pythonErr imp).1 = true) :
    (process pythonValid pythonErr env opp_id now fs).snap
        = some (create_snapshot (touchedPaths imp) fs)
    ∧ (∀ p ∈ touchedPaths imp, ∀ g : FS,
        rollback_to (create_snapshot (touchedPaths imp) fs) g p = fs p)
    ∧ ((process pythonValid pythonErr env opp_id now fs).stage = .applyFailed →
        (process pythonValid pythonErr env opp_id now fs).rolledBack = true
          ∧ (process pythonValid pythonErr env opp_id now fs).fs = fs) := by
  rcases hval : validate_improvement pythonValid pythonErr imp with ⟨ok, errs⟩
  rw [hval] at hvalid
  rcases ok
  · exact absurd hvalid (by simp)
  · refine ⟨?_, fun p hp g => rollback_restore_touched _ fs g p hp, ?_⟩
    · rcases happ : applyChanges env.writeFails imp.changes 0 fs 0 [] with ⟨m, fs1⟩ | ⟨fs1, a, f⟩
      · simp [process, hgen, hval, happ]
      · rcases htc : imp.test_code with _ | tc
        · rcases hap : env.autoPush
          · simp [process, hgen, hval, happ, htc, hap]
          · rcases hgit : commit_and_push_improvement env.gitEnv now
                imp.title imp.description imp.id f with e | g
            · simp [process, hgen, hval, happ, htc, hap, hgit]
            · simp [process, hgen, hval, happ, htc, hap, hgit]
        · rcases hto : env.testsOutcome with e | b
          · simp [process, hgen, hval, happ, htc, hto]
          · rcases b
            · simp [process, hgen, hval, happ, htc, hto]
            · rcases hap : env.autoPush
              · simp [process, hgen, hval, happ, htc, hto, hap]
              · rcases hgit : commit_and_push_improvement env.gitEnv now
                    imp.title imp.description imp.id f with e | g
                · simp [process, hgen, hval, happ, htc, hto, hap, hgit]
                · simp [process, hgen, hval, happ, htc, hto, hap, hgit]
    · intro hstage
      rcases happ : applyChanges env.writeFails imp.changes 0 fs 0 [] with ⟨m, fs1⟩ | ⟨fs1, a, f⟩
      · constructor
        · simp [process, hgen, hval, happ]
        · have hroll := rollback_discards_apply imp fs fs1 env.writeFails 0 0 [] m happ
          simp [process, hgen, hval, happ, hroll]
      · exfalso
        rcases htc : imp.test_code with _ | tc
        · rcases hap : env.autoPush
          · simp [process, hgen, hval, happ, htc, hap] at hstage
          · rcases hgit : commit_and_push_improvement env.gitEnv now
                imp.title imp.description imp.id f with e | g
            · simp [process, hgen, hval, happ, htc, hap, hgit] at hstage
            · simp [process, hgen, hval, happ, htc, hap, hgit] at hstage
        · rcases hto : env.testsOutcome with e | b
          · simp [process, hgen, hval, happ, htc, hto] at hstage
          · rcases b
            · simp [process, hgen, hval, happ, htc, hto] at hstage
            · rcases hap : env.autoPush
              · simp [process, hgen, hval, happ, htc, hto, hap] at hstage
              · rcases hgit : commit_and_push_improvement env.gitEnv now
                    imp.title imp.description imp.id f with e | g
                · simp [process, hgen, hval, happ, htc, hto, hap, hgit] at hstage
                · simp [process, hgen, hval, happ, htc, hto, hap, hgit] at hstage

/-- A run in which the single write of `impTest` raises. -/
def envWriteFails : ProcessEnv :=
  { genResult := some impTest, writeFails := fun _ => true
    testsOutcome := .ok true
    autoPush := false, gitEnv := gitEnvPendingPushFail }

theorem snapshot_covers_and_all_or_nothing_witness :
    (process pyValidAll pyErrAll envWriteFails "opp-3" 0 fsPre).snap
        = some (create_snapshot (touchedPaths impTest) fsPre)
    ∧ rollback_to (create_snapshot (touchedPaths impTest) fsPre) fsMid "a.py" = fsPre "a.py"
    ∧ ((process pyValidAll pyErrAll envWriteFails "opp-3" 0 fsPre).rolledBack = true
        ∧ (process pyValidAll pyErrAll envWriteFails "opp-3" 0 fsPre).fs = fsPre) := by
  have h := snapshot_covers_and_all_or_nothing pyValidAll pyErrAll envWriteFails
    "opp-3" 0 fsPre impTest (by decide) (by decide)
  exact ⟨h.1, h.2.1 "a.py" (by decide) fsMid, h.2.2 (by decide)⟩

/-! ## Claim C10 — "delete" changes write nothing but are counted -/

/-- C10: in a run that completes (`stage = done`), a change of kind
"delete" whose target no other kind of change also writes leaves its
target file byte-for-byte unchanged on disk, yet it is counted in
`changes_applied` (which equals the total number of changes) and its path
is listed among the changed files reported to the publisher. -/
theorem delete_changes_counted_not_applied (pythonValid : String → Bool)
    (pythonErr : String → String) (env : ProcessEnv) (opp_id : String)
    (now : Int) (fs : FS) (imp : Improvement) (c : CodeChange)
    (hgen : env.genResult = some imp)
    (hc : c ∈ imp.changes) (_hdel : c.change_type = "delete")
    (huniq : ∀ c2 ∈ imp.changes, c2.file_path = c.file_path → c2.change_type = "delete")
    (hdone : (process pythonValid pythonErr env opp_id now fs).stage = .done) :
    (process pythonValid pythonErr env opp_id now fs).fs c.file_path = fs c.file_path
    ∧ (process pythonValid pythonErr env opp_id now fs).res.changes_applied
        = imp.changes.length
    ∧ c.file_path ∈ (process pythonValid pythonErr env opp_id now fs).filesChanged := by
  have hframe : ∀ c2 ∈ imp.changes,
      (c2.change_type = "create" ∨ c2.change_type = "modify") →
        c2.file_path ≠ c.file_path := by
    intro c2 hc2 hkind heq
    have := huniq c2 hc2 heq
    rcases hkind with hk | hk <;> rw [this] at hk <;> exact absurd hk (by decide)
  rcases hval : validate_improvement pythonValid pythonErr imp with ⟨ok, errs⟩
  rcases ok
  · exfalso; simp [process, hgen, hval] at hdone
  · rcases happ : applyChanges env.writeFails imp.changes 0 fs 0 [] with ⟨m, fs1⟩ | ⟨fs1, a, f⟩
    · exfalso; simp [process, hgen, hval, happ] at hdone
    · have hfs1 := applyChanges_ok_fs env.writeFails imp.changes 0 fs 0 [] fs1 a f happ
        c.file_path hframe
      have hinv := applyChanges_ok_inv env.writeFails imp.changes 0 fs 0 [] fs1 a f happ
      have hmem : c.file_path ∈ f := by
        rw [hinv.1]
        simpa using List.mem_map_of_mem (·.file_path) hc
      rcases htc : imp.test_code with _ | tc
      · rcases hap : env.autoPush
        · simp [process, hgen, hval, happ, htc, hap, commit_improvement]
          exact ⟨hfs1, by omega, hmem⟩
        · rcases hgit : commit_and_push_improvement env.gitEnv now
              imp.title imp.description imp.id f with e | g
          · exfalso; simp [process, hgen, hval, happ, htc, hap, hgit] at hdone
          · simp [process, hgen, hval, happ, htc, hap, hgit, commit_improvement]
            exact ⟨hfs1, by omega, hmem⟩
      · rcases hto : env.testsOutcome with e | b
        · exfalso; simp [process, hgen, hval, happ, htc, hto] at hdone
        · rcases b
          · exfalso; simp [process, hgen, hval, happ, htc, hto] at hdone
          · rcases hap : env.autoPush
            · simp [process, hgen, hval, happ, htc, hto, hap, commit_improvement]
              exact ⟨hfs1, by omega, hmem⟩
            · rcases hgit : commit_and_push_improvement env.gitEnv now
                  imp.title imp.description imp.id f with e | g
              · exfalso; simp [process, hgen, hval, happ, htc, hto, hap, hgit] at hdone
              · simp [process, hgen, hval, happ, htc, hto, hap, hgit, commit_improvement]
                exact ⟨hfs1, by omega, hmem⟩

/-- An improvement that modifies `a.py` and "deletes" `b.py`. -/
def impWithDelete : Improvement :=
  { id := "imp-3", title := "T3", description := "D3"
    changes := [{ file_path := "a.py", change_type := "modify", description := "set"
                  old_content := some "before", new_content := "after" },
                { file_path := "b.py", change_type := "delete", description := "drop"
                  old_content := some "obsolete", new_content := "" }]
    test_code := none }

/-- A run of `impWithDelete` that completes without publishing. -/
def envDelete : ProcessEnv :=
  { genResult := some impWithDelete, writeFails := fun _ => false
    testsOutcome := .ok true
    autoPush := false, gitEnv := gitEnvPendingPushFail }

/-- The pre-apply state for the delete run: `b.py` exists. -/
def fsDel : FS :=
  fun p => if p = "a.py" then some "before"
    else if p = "b.py" then some "obsolete" else none

theorem delete_changes_counted_not_applied_witness :
    (process pyValidAll pyErrAll envDelete "opp-4" 0 fsDel).fs "b.py" = fsDel "b.py"
    ∧ (process pyValidAll pyErrAll envDelete "opp-4" 0 fsDel).res.changes_applied
        = impWithDelete.changes.length
    ∧ ("b.py" : FilePath)
        ∈ (process pyValidAll pyErrAll envDelete "opp-4" 0 fsDel).filesChanged := by
  have h := delete_changes_counted_not_applied pyValidAll pyErrAll envDelete
    "opp-4" 0 fsDel impWithDelete
    { file_path := "b.py", change_type := "delete", description := "drop"
      old_content := some "obsolete", new_content := "" }
    (by decide) (by decide) (by decide) (by decide) (by decide)
  exact h

/-! ## Claim C7 — manual-trigger cooldown -/

/-- Every return site of `_process_opportunity` stamps the result with the
time taken at entry. -/
theorem process_res_timestamp (pythonValid : String → Bool)
    (pythonErr : String → String) (env : ProcessEnv) (opp_id : String)
    (now : Int) (fs : FS) :
    (process pythonValid pythonErr env opp_id now fs).res.timestamp = now := by
  rcases hgen : env.genResult with _ | imp
  · simp [process, hgen, failResult]
  · rcases hval : validate_improvement pythonValid pythonErr imp with ⟨ok, errs⟩
    rcases ok
    · simp [process, hgen, hval, failResult]
    · rcases happ : applyChanges env.writeFails imp.changes 0 fs 0 [] with ⟨m, fs1⟩ | ⟨fs1, a, f⟩
      · simp [process, hgen, hval, happ, failResult]
      · rcases htc : imp.test_code with _ | tc
        · rcases hap : env.autoPush
          · simp [process, hgen, hval, happ, htc, hap, failResult]
          · rcases hgit : commit_and_push_improvement env.gitEnv now
                imp.title imp.description imp.id f with e | g
            · simp [process, hgen, hval, happ, htc, hap, hgit, failResult]
            · simp [process, hgen, hval, happ, htc, hap, hgit, failResult]
        · rcases hto : env.testsOutcome with e | b
          · simp [process, hgen, hval, happ, htc, hto, failResult]
          · rcases b
            · simp [process, hgen, hval, happ, htc, hto, failResult]
            · rcases hap : env.autoPush
              · simp [process, hgen, hval, happ, htc, hto, hap, failResult]
              · rcases hgit : commit_and_push_improvement env.gitEnv now
                    imp.title imp.description imp.id f with e | g
                · simp [process, hgen, hval, happ, htc, hto, hap, hgit, failResult]
                · simp [process, hgen, hval, happ, htc, hto, hap, hgit, failResult]

/-- C7: starting from an empty improvement history, a manual trigger at
t = 0 whose processing succeeds is accepted (its response carries
`success = True`), and it appends exactly one result to the shared
history; a second trigger at t = 60 s against that history — whatever its
own environment and opportunities — is rejected without being queued (the
history and the file system are untouched), reporting 240 seconds of
remaining wait. -/
theorem improve_now_cooldown (pythonValid : String → Bool)
    (pythonErr : String → String) (penv : ProcessEnv)
    (pythonValid2 : String → Bool) (pythonErr2 : String → String)
    (penv2 : ProcessEnv) (o : ImprovementOpportunity)
    (rest opps2 : List ImprovementOpportunity) (fs fs2 : FS)
    (hsucc : (process pythonValid pythonErr penv o.id 0 fs).res.success = true) :
    (improve_now pythonValid pythonErr penv 0 none (o :: rest) [] fs).1.successFlag = true
    ∧ (improve_now pythonValid pythonErr penv 0 none (o :: rest) [] fs).2.1
        = [(process pythonValid pythonErr penv o.id 0 fs).res]
    ∧ improve_now pythonValid2 pythonErr2 penv2 60 none opps2
        (improve_now pythonValid pythonErr penv 0 none (o :: rest) [] fs).2.1 fs2
      = (.rateLimited "Rate limited. Try again in 240 seconds.",
          (improve_now pythonValid pythonErr penv 0 none (o :: rest) [] fs).2.1, fs2) := by
  have h2 : (improve_now pythonValid pythonErr penv 0 none (o :: rest) [] fs).2.1
      = [(process pythonValid pythonErr penv o.id 0 fs).res] := by
    simp only [improve_now, improveNowBody, List.getLast?]
    split <;> simp
  refine ⟨?_, h2, ?_⟩
  · simp only [improve_now, improveNowBody, List.getLast?]
    rw [if_pos hsucc]
    simp [ImproveNowResponse.successFlag]
  · rw [h2]
    have hts := process_res_timestamp pythonValid pythonErr penv o.id 0 fs
    simp only [improve_now, List.getLast?_singleton, hts]
    rw [if_pos (by norm_num [cooldownSecs])]
    norm_num [cooldownSecs]
    decide

/-- An improvement with no changes at all, processed successfully. -/
def impEmpty : Improvement :=
  { id := "imp-0", title := "Tidy", description := ""
    changes := [], test_code := none }

/-- A processing environment that succeeds immediately. -/
def envQuick : ProcessEnv :=
  { genResult := some impEmpty, writeFails := fun _ => false
    testsOutcome := .ok true, autoPush := false, gitEnv := gitEnvPendingPushFail }

/-- A concrete opportunity for the cooldown witness. -/
def oppW : ImprovementOpportunity :=
  { id := "opp-w", type := .FIX_FAILURE
    description := "Fix recurring failure: E", priority := 8
    context := .failureCtx "E" 3 [] [] }

theorem improve_now_cooldown_witness :
    (improve_now pyValidAll pyErrAll envQuick 0 none [oppW] [] fsPre).1.successFlag = true
    ∧ improve_now pyValidAll pyErrAll envQuick 60 none [oppW]
        (improve_now pyValidAll pyErrAll envQuick 0 none [oppW] [] fsPre).2.1 fsPre
      = (.rateLimited "Rate limited. Try again in 240 seconds.",
          (improve_now pyValidAll pyErrAll envQuick 0 none [oppW] [] fsPre).2.1, fsPre) := by
  have h := improve_now_cooldown pyValidAll pyErrAll envQuick pyValidAll pyErrAll
    envQuick oppW [] [oppW] fsPre fsPre (by decide)
  exact ⟨h.1, h.2.2⟩

/-! ## Claim C5 — failure clustering -/

theorem mem_firstKeys {α : Type} [DecidableEq α] (l : List α) (a : α) :
    a ∈ firstKeys l ↔ a ∈ l := by
  induction l using firstKeys.induct with
  | case1 => simp [firstKeys]
  | case2 k ks ih =>
    rw [firstKeys]
    simp only [List.mem_cons, ih]
    constructor
    · rintro (rfl | hmem)
      · exact Or.inl rfl
      · exact Or.inr (List.mem_filter.mp hmem).1
    · rintro (rfl | hmem)
      · exact Or.inl rfl
      · by_cases hak : a = k
        · exact Or.inl hak
        · exact Or.inr (List.mem_filter.mpr ⟨hmem, by simp [hak]⟩)

theorem firstKeys_nodup {α : Type} [DecidableEq α] (l : List α) :
    (firstKeys l).Nodup := by
  induction l using firstKeys.induct with
  | case1 => simp [firstKeys]
  | case2 k ks ih =>
    rw [firstKeys]
    refine List.nodup_cons.mpr ⟨fun hmem => ?_, ih⟩
    have := (List.mem_filter.mp ((mem_firstKeys _ _).mp hmem)).2
    simp at this

/-- Over a duplicate-free key list containing `e`, exactly one key passes a
test that holds at `e` and compares the key with `e`. -/
theorem countP_keys_eq_one {α : Type} [DecidableEq α] (l : List α) (e : α)
    (q : α → Bool) (hnd : l.Nodup) (he : e ∈ l) (hq : q e = true) :
    l.countP (fun k => decide (k = e) && q k) = 1 := by
  induction l with
  | nil => cases he
  | cons a l ih =>
    rcases List.mem_cons.mp he with rfl | hmem
    · rw [List.countP_cons]
      have hzero : l.countP (fun k => decide (k = e) && q k) = 0 := by
        refine List.countP_eq_zero.mpr fun k hk => ?_
        have hka : k ≠ e := fun h => (List.nodup_cons.mp hnd).1 (h ▸ hk)
        simp [hka]
      simp [hzero, hq]
    · have ha : a ≠ e := fun h => (List.nodup_cons.mp hnd).1 (h ▸ hmem)
      rw [List.countP_cons]
      simp only [ha, decide_False, Bool.false_and, if_neg]
      simp only [Bool.false_eq_true, if_false, Nat.add_zero]
      exact ih (List.nodup_cons.mp hnd).2 hmem

/-- The error text recorded in a fix-failure opportunity, if it is one. -/
def failureErrorOf (o : ImprovementOpportunity) : Option String :=
  match o.context with
  | .failureCtx err _ _ _ => some err
  | _ => none

/-- Is `o` the fix-failure opportunity for the error cluster keyed `e`? -/
def isFixFailureFor (e : String) (o : ImprovementOpportunity) : Bool :=
  decide (o.type = .FIX_FAILURE) && decide (failureErrorOf o = some e)

/-- The size of the failure cluster keyed `e` in the trailing window. -/
def failureClusterSize (now : Int) (history : List TaskRecord) (e : String) : Nat :=
  ((recentFailures now history).filter (fun t => errorKey t = e)).length

theorem analyzeSlowOps_type (now : Int) (history : List TaskRecord) :
    ∀ o ∈ analyzeSlowOps now history, o.type = .OPTIMIZE_SPEED := by
  intro o ho
  simp only [analyzeSlowOps] at ho
  split at ho
  · simp at ho
  · split at ho
    · simp at ho
    · rcases List.mem_filterMap.mp ho with ⟨tool, _, hsome⟩
      split at hsome
      · cases hsome; rfl
      · exact absurd hsome (by simp)

theorem analyzePatterns_type (pyhash : String → Nat) (now : Int)
    (history : List TaskRecord) :
    ∀ o ∈ analyzePatterns pyhash now history, o.type = .PATTERN_AUTOMATION := by
  intro o ho
  simp only [analyzePatterns] at ho
  rcases List.mem_filterMap.mp ho with ⟨seq, _, hsome⟩
  split at hsome
  · cases hsome; rfl
  · exact absurd hsome (by simp)

theorem analyzeCapabilities_type (pyhash : String → Nat) (now : Int)
    (history : List TaskRecord) :
    ∀ o ∈ analyzeCapabilities pyhash now history, o.type = .NEW_CAPABILITY := by
  intro o ho
  simp only [analyzeCapabilities] at ho
  rcases List.mem_filterMap.mp ho with ⟨k, _, hsome⟩
  split at hsome
  · cases hsome; rfl
  · exact absurd hsome (by simp)

theorem isFixFailureFor_mkFailureOpp (pyhash : String → Nat) (e : String)
    (kg : String × List TaskRecord) :
    isFixFailureFor e (mkFailureOpp pyhash kg) = decide (kg.1 = e) := by
  simp [isFixFailureFor, mkFailureOpp, failureErrorOf]

theorem countP_analyzeFailures (pyhash : String → Nat) (now : Int)
    (history : List TaskRecord) (e : String)
    (hn : 2 ≤ failureClusterSize now history e) :
    (analyzeFailures pyhash now history).countP (isFixFailureFor e) = 1 := by
  unfold analyzeFailures
  rw [List.countP_map, List.countP_filter]
  unfold errorGroups
  rw [List.countP_map]
  have hcong : List.countP
      ((fun a => (isFixFailureFor e ∘ mkFailureOpp pyhash) a && decide (2 ≤ a.2.length))
        ∘ fun k => (k, (recentFailures now history).filter (fun t => errorKey t = k)))
      (firstKeys ((recentFailures now history).map errorKey))
      = List.countP
        (fun k => decide (k = e)
          && decide (2 ≤ ((recentFailures now history).filter
              (fun t => errorKey t = k)).length))
        (firstKeys ((recentFailures now history).map errorKey)) := by
    refine List.countP_congr fun k _ => ?_
    simp [Function.comp, isFixFailureFor_mkFailureOpp]
  rw [hcong]
  have hpos : 0 < failureClusterSize now history e := lt_of_lt_of_le (by norm_num) hn
  have hmem : e ∈ firstKeys ((recentFailures now history).map errorKey) := by
    rw [failureClusterSize, ← List.countP_eq_length_filter] at hpos
    rcases List.countP_pos_iff.mp hpos with ⟨t, ht, hkey⟩
    exact (mem_firstKeys _ _).mpr
      (List.mem_map.mpr ⟨t, ht, of_decide_eq_true hkey⟩)
  exact countP_keys_eq_one _ e _ (firstKeys_nodup _) hmem (decide_eq_true hn)

/-- C5: each error cluster of size `n ≥ 2` among the failed records of the
trailing 7-day window yields exactly one fix-failure opportunity in the
output of `analyze`, and its priority is `min 10 (5 + n)`. -/
theorem analyze_failure_clusters (pyhash : String → Nat) (now : Int)
    (history : List TaskRecord) (e : String)
    (hn : 2 ≤ failureClusterSize now history e) :
    (analyze pyhash now history).countP (isFixFailureFor e) = 1
    ∧ ∀ o ∈ analyze pyhash now history, isFixFailureFor e o = true →
        o.priority = min 10 (5 + failureClusterSize now history e) := by
  have hperm := List.mergeSort_perm
    (analyzeFailures pyhash now history ++ analyzeSlowOps now history
      ++ analyzePatterns pyhash now history ++ analyzeCapabilities pyhash now history)
    (fun a b => decide (b.priority ≤ a.priority))
  have hB : (analyzeSlowOps now history).countP (isFixFailureFor e) = 0 :=
    List.countP_eq_zero.mpr fun o ho => by
      simp [isFixFailureFor, analyzeSlowOps_type now history o ho]
  have hC : (analyzePatterns pyhash now history).countP (isFixFailureFor e) = 0 :=
    List.countP_eq_zero.mpr fun o ho => by
      simp [isFixFailureFor, analyzePatterns_type pyhash now history o ho]
  have hD : (analyzeCapabilities pyhash now history).countP (isFixFailureFor e) = 0 :=
    List.countP_eq_zero.mpr fun o ho => by
      simp [isFixFailureFor, analyzeCapabilities_type pyhash now history o ho]
  constructor
  · unfold analyze
    rw [hperm.countP_eq, List.countP_append, List.countP_append, List.countP_append,
      countP_analyzeFailures pyhash now history e hn, hB, hC, hD]
  · intro o ho hpred
    have homem := hperm.mem_iff.mp (by simpa [analyze] using ho)
    rcases List.mem_append.mp homem with h1 | hDm
    rcases List.mem_append.mp h1 with h2 | hCm
    rcases List.mem_append.mp h2 with hAm | hBm
    · rcases List.mem_map.mp hAm with ⟨kg, hkg, rfl⟩
      rcases List.mem_filter.mp hkg with ⟨hkg2, _⟩
      rcases List.mem_map.mp hkg2 with ⟨k, _, rfl⟩
      rw [isFixFailureFor_mkFailureOpp] at hpred
      have hke : k = e := of_decide_eq_true hpred
      subst hke
      simp only [mkFailureOpp, failureClusterSize]
      omega
    · exact absurd hpred (List.countP_eq_zero.mp hB o hBm)
    · exact absurd hpred (List.countP_eq_zero.mp hC o hCm)
    · exact absurd hpred (List.countP_eq_zero.mp hD o hDm)

/-- A failed task with error text `E`, distinguished by its id. -/
def failRec (taskId : String) : TaskRecord :=
  { task_id := taskId, user_request := "do x", tools_used := ["term"]
    success := false, error_message := some "E", duration_ms := 10, timestamp := 0 }

/-- Three failures with identical error text. -/
def hist3 : List TaskRecord := [failRec "f0", failRec "f1", failRec "f2"]

/-- A fourth identical failure on top. -/
def hist4 : List TaskRecord := hist3 ++ [failRec "f3"]

/-- A concrete stand-in for CPython string hashing. -/
def pyhashZero : String → Nat := fun _ => 0

theorem analyze_failure_clusters_witness :
    failureClusterSize 0 hist3 "E" = 3
    ∧ failureClusterSize 0 hist4 "E" = 4
    ∧ (analyze pyhashZero 0 hist3).countP (isFixFailureFor "E") = 1
    ∧ (analyze pyhashZero 0 hist4).countP (isFixFailureFor "E") = 1
    ∧ (∀ o ∈ analyze pyhashZero 0 hist3, isFixFailureFor "E" o = true →
        o.priority = 8)
    ∧ (∀ o ∈ analyze pyhashZero 0 hist4, isFixFailureFor "E" o = true →
        o.priority = 9) := by
  have hc3 : failureClusterSize 0 hist3 "E" = 3 := by decide
  have hc4 : failureClusterSize 0 hist4 "E" = 4 := by decide
  have h3 := analyze_failure_clusters pyhashZero 0 hist3 "E" (by rw [hc3]; norm_num)
  have h4 := analyze_failure_clusters pyhashZero 0 hist4 "E" (by rw [hc4]; norm_num)
  refine ⟨hc3, hc4, h3.1, h4.1, fun o ho hp => ?_, fun o ho hp => ?_⟩
  · rw [h3.2 o ho hp, hc3]; decide
  · rw [h4.2 o ho hp, hc4]; decide

end Twizzy
